import Mathlib

/-!
# Verification of `brewtils/log.py`

A shallow embedding of the brewtils logging utilities:

* a JSON value model (`JVal`) for the configurations that
  `configure_logging` serializes with `json.dumps`, template-substitutes
  with `string.Template(...).safe_substitute(...)`, and parses back with
  `json.loads`;
* the Python `string.Template.safe_substitute` scanner (`safeSub`);
* a state-passing model of `configure_logging` (filesystem directories
  plus the process-wide logging configuration);
* direct models of `default_config`, `convert_logging_config`,
  `setup_logger` and `get_python_logging_config`.

Numbers are modelled as natural numbers (the configurations this module
manipulates contain non-negative integers); the serializer follows
`json.dumps` with its default separators and the parser accepts exactly
that canonical form.
-/

/-- JSON values, the configurations handled by `configure_logging`.
Objects are association lists in Python dict insertion order. -/
inductive JVal where
  | null : JVal
  | bool : Bool → JVal
  | num : Nat → JVal
  | str : String → JVal
  | arr : List JVal → JVal
  | obj : List (String × JVal) → JVal

/-- The character of a decimal digit, as in Python number printing. -/
def digitChar (d : Nat) : Char := Char.ofNat (48 + d)

/-- Decimal digits of `n`, least significant first (empty for 0). -/
def natDigitsRev (n : Nat) : List Char :=
  if h : n = 0 then []
  else digitChar (n % 10) :: natDigitsRev (n / 10)
decreasing_by exact Nat.div_lt_self (Nat.pos_of_ne_zero h) (by decide)

/-- The decimal rendering of `n`, as `json.dumps` prints an integer. -/
def natChars (n : Nat) : List Char :=
  if n = 0 then ['0'] else (natDigitsRev n).reverse

/-- JSON string escaping of one character (`json.dumps`). -/
def escChar (c : Char) : List Char :=
  if c = '"' then ['\\', '"']
  else if c = '\\' then ['\\', '\\']
  else if c = '\n' then ['\\', 'n']
  else if c = '\t' then ['\\', 't']
  else if c = '\r' then ['\\', 'r']
  else if c = '\x08' then ['\\', 'b']
  else if c = '\x0c' then ['\\', 'f']
  else [c]

/-- JSON string escaping (`json.dumps` on the body of a string). -/
def escString (cs : List Char) : List Char := cs.flatMap escChar

mutual

/-- `json.dumps` with its default separators `", "` and `": "`. -/
def dumps : JVal → List Char
  | .null => "null".data
  | .bool b => (if b then "true" else "false").data
  | .num n => natChars n
  | .str s => '"' :: (escString s.data ++ ['"'])
  | .arr xs => '[' :: (dumpsElems xs ++ [']'])
  | .obj kvs => '\x7b' :: (dumpsMembers kvs ++ ['\x7d'])

/-- The comma-separated element list of a serialized JSON array. -/
def dumpsElems : List JVal → List Char
  | [] => []
  | v :: t => dumps v ++ dumpsElemsTail t

/-- Trailing elements of a serialized JSON array, each after `", "`. -/
def dumpsElemsTail : List JVal → List Char
  | [] => []
  | v :: t => ',' :: ' ' :: (dumps v ++ dumpsElemsTail t)

/-- The comma-separated member list of a serialized JSON object. -/
def dumpsMembers : List (String × JVal) → List Char
  | [] => []
  | (k, v) :: t =>
    '"' :: (escString k.data ++ '"' :: ':' :: ' ' :: (dumps v ++ dumpsMembersTail t))

/-- Trailing members of a serialized JSON object, each after `", "`. -/
def dumpsMembersTail : List (String × JVal) → List Char
  | [] => []
  | (k, v) :: t =>
    ',' :: ' ' :: '"' ::
      (escString k.data ++ '"' :: ':' :: ' ' :: (dumps v ++ dumpsMembersTail t))

end

mutual

/-- Structural size of a JSON value, the fuel bound for the reader. -/
def jsize : JVal → Nat
  | .arr xs => 2 + jsizeList xs
  | .obj kvs => 2 + jsizeObj kvs
  | _ => 1

/-- Combined size of array elements. -/
def jsizeList : List JVal → Nat
  | [] => 0
  | v :: t => 1 + jsize v + jsizeList t

/-- Combined size of object members. -/
def jsizeObj : List (String × JVal) → Nat
  | [] => 0
  | (_, v) :: t => 1 + jsize v + jsizeObj t

end

/-- Keys of an association list have no duplicate. -/
def keysNodup (kvs : List (String × JVal)) : Bool :=
  decide (kvs.map Prod.fst).Nodup

mutual

/-- A `JVal` that is realizable as a Python object: every object level
has pairwise-distinct keys, as a Python dict forces. -/
def wfJ : JVal → Bool
  | .null => true
  | .bool _ => true
  | .num _ => true
  | .str _ => true
  | .arr xs => wfList xs
  | .obj kvs => keysNodup kvs && wfObj kvs

/-- `wfJ` on every element of an array. -/
def wfList : List JVal → Bool
  | [] => true
  | v :: t => wfJ v && wfList t

/-- `wfJ` on every member value of an object. -/
def wfObj : List (String × JVal) → Bool
  | [] => true
  | (_, v) :: t => wfJ v && wfObj t

end


/-- Decode one JSON string escape character (`json.loads`). -/
def unescChar (c : Char) : Option Char :=
  if c = '"' then some '"'
  else if c = '\\' then some '\\'
  else if c = '/' then some '/'
  else if c = 'n' then some '\n'
  else if c = 't' then some '\t'
  else if c = 'r' then some '\r'
  else if c = 'b' then some '\x08'
  else if c = 'f' then some '\x0c'
  else none

/-- Read a JSON string body up to its closing quote (`json.loads`);
returns the decoded characters and the unconsumed input. -/
def readStr : List Char → Option (List Char × List Char)
  | [] => none
  | c :: r =>
    if c = '"' then some ([], r)
    else if c = '\\' then
      match r with
      | [] => none
      | e :: r2 =>
        match unescChar e with
        | none => none
        | some u =>
          match readStr r2 with
          | some (cs, r3) => some (u :: cs, r3)
          | none => none
    else
      match readStr r with
      | some (cs, r2) => some (c :: cs, r2)
      | none => none

/-- The value of a run of decimal digit characters. -/
def digitsToNat (ds : List Char) : Nat :=
  ds.foldl (fun a c => 10 * a + (c.toNat - 48)) 0

mutual

/-- Read one JSON value from the canonical `json.dumps` form
(`json.loads`), with a fuel bound on nesting. -/
def readVal : Nat → List Char → Option (JVal × List Char)
  | 0, _ => none
  | _ + 1, [] => none
  | fuel + 1, c :: r =>
    if c = 'n' then
      match r with
      | 'u' :: 'l' :: 'l' :: r2 => some (.null, r2)
      | _ => none
    else if c = 't' then
      match r with
      | 'r' :: 'u' :: 'e' :: r2 => some (.bool true, r2)
      | _ => none
    else if c = 'f' then
      match r with
      | 'a' :: 'l' :: 's' :: 'e' :: r2 => some (.bool false, r2)
      | _ => none
    else if c = '"' then
      match readStr r with
      | some (cs, r2) => some (.str (String.mk cs), r2)
      | none => none
    else if c = '[' then readArrBody fuel r
    else if c = '\x7b' then readObjBody fuel r
    else if c.isDigit then
      some (.num (digitsToNat ((c :: r).takeWhile Char.isDigit)),
            (c :: r).dropWhile Char.isDigit)
    else none

/-- Read the inside of a JSON array, after the opening bracket. -/
def readArrBody : Nat → List Char → Option (JVal × List Char)
  | 0, _ => none
  | _ + 1, [] => none
  | fuel + 1, c :: r =>
    if c = ']' then some (.arr [], r)
    else
      match readVal fuel (c :: r) with
      | some (v, r1) =>
        match readArrTail fuel r1 with
        | some (vs, r2) => some (.arr (v :: vs), r2)
        | none => none
      | none => none

/-- Read the rest of a JSON array: `", "`-separated elements, then `]`. -/
def readArrTail : Nat → List Char → Option (List JVal × List Char)
  | 0, _ => none
  | _ + 1, [] => none
  | fuel + 1, c :: r =>
    if c = ']' then some ([], r)
    else if c = ',' then
      match r with
      | ' ' :: r1 =>
        match readVal fuel r1 with
        | some (v, r2) =>
          match readArrTail fuel r2 with
          | some (vs, r3) => some (v :: vs, r3)
          | none => none
        | none => none
      | _ => none
    else none

/-- Read the inside of a JSON object, after the opening brace. -/
def readObjBody : Nat → List Char → Option (JVal × List Char)
  | 0, _ => none
  | _ + 1, [] => none
  | fuel + 1, c :: r =>
    if c = '\x7d' then some (.obj [], r)
    else if c = '"' then
      match readStr r with
      | some (kcs, r1) =>
        match r1 with
        | ':' :: ' ' :: r2 =>
          match readVal fuel r2 with
          | some (v, r3) =>
            match readObjTail fuel r3 with
            | some (kvs, r4) => some (.obj ((String.mk kcs, v) :: kvs), r4)
            | none => none
          | none => none
        | _ => none
      | none => none
    else none

/-- Read the rest of a JSON object: `", "`-separated members, then the
closing brace. -/
def readObjTail : Nat → List Char → Option (List (String × JVal) × List Char)
  | 0, _ => none
  | _ + 1, [] => none
  | fuel + 1, c :: r =>
    if c = '\x7d' then some ([], r)
    else if c = ',' then
      match r with
      | ' ' :: '"' :: r1 =>
        match readStr r1 with
        | some (kcs, r2) =>
          match r2 with
          | ':' :: ' ' :: r3 =>
            match readVal fuel r3 with
            | some (v, r4) =>
              match readObjTail fuel r4 with
              | some (kvs, r5) => some ((String.mk kcs, v) :: kvs, r5)
              | none => none
            | none => none
          | _ => none
        | none => none
      | _ => none
    else none

end

/-- `json.loads`: the whole input must be one JSON value. -/
def jsonLoads (t : List Char) : Option JVal :=
  match readVal (2 * t.length + 1) t with
  | some (v, []) => some v
  | _ => none

/-- First character of a Python `string.Template` identifier
(default pattern `[_a-zA-Z][_a-zA-Z0-9]*` with the ASCII flag). -/
def isIdStart (c : Char) : Bool := c = '_' || c.isAlpha

/-- Subsequent character of a Python `string.Template` identifier. -/
def isIdChar (c : Char) : Bool := isIdStart c || c.isDigit

/-- First-match association-list lookup, Python dict `mapping[named]`. -/
def lookupStr (k : String) : List (String × String) → Option String
  | [] => none
  | (k2, v) :: t => if k2 = k then some v else lookupStr k t

/-- The scanner of `string.Template(...).safe_substitute(mapping)` with
the default delimiter `$`: `$$` becomes `$`; `$name` and the braced form
for a `name` in the mapping become the mapping's value; every other
occurrence of `$` is left unchanged. The replacement value is emitted
without being rescanned, exactly as `re.sub` resumes after a match. -/
def safeSub (m : List (String × String)) : List Char → List Char
  | [] => []
  | '$' :: rest =>
    match rest with
    | [] => ['$']
    | '$' :: r => '$' :: safeSub m r
    | '\x7b' :: r =>
      match r.takeWhile isIdChar, hdrop : r.dropWhile isIdChar with
      | ic :: itail, '\x7d' :: r3 =>
        if isIdStart ic then
          match lookupStr (String.mk (ic :: itail)) m with
          | some v => v.data ++ safeSub m r3
          | none => '$' :: '\x7b' :: (ic :: itail) ++ '\x7d' :: safeSub m r3
        else '$' :: '\x7b' :: safeSub m r
      | _, _ => '$' :: '\x7b' :: safeSub m r
    | c :: r =>
      if isIdStart c then
        match lookupStr (String.mk (c :: r.takeWhile isIdChar)) m with
        | some v => v.data ++ safeSub m (r.dropWhile isIdChar)
        | none => '$' :: (c :: r.takeWhile isIdChar) ++ safeSub m (r.dropWhile isIdChar)
      else '$' :: c :: safeSub m r
  | c :: rest => c :: safeSub m rest
termination_by t => t.length
decreasing_by
  all_goals
    try simp only [List.length_cons]
  all_goals
    try omega
  all_goals
    have h3 : (List.dropWhile isIdChar r).length ≤ r.length :=
      (List.dropWhile_sublist isIdChar).length_le
  all_goals
    first
    | omega
    | (rw [hdrop] at h3
       simp only [List.length_cons] at h3
       omega)

/-- Python `str()` of a template argument that is either a string or
`None` (the defaults of `configure_logging`): `str(None)` is `"None"`. -/
def pyStr : Option String → String
  | none => "None"
  | some s => s

/-- The keyword mapping `configure_logging` passes to
`safe_substitute`: all four keys are always present (line 130-135 of
`log.py`), with the arguments' `str()` forms as values. -/
def templateMapping (ns sn sv inn : Option String) : List (String × String) :=
  [("namespace", pyStr ns), ("system_name", pyStr sn),
   ("system_version", pyStr sv), ("instance_name", pyStr inn)]

/-- The serialize → substitute → deserialize pipeline of
`configure_logging` (lines 130-136): `json.loads` applied to the
`safe_substitute` of `json.dumps raw`. -/
def templatedConfig (raw : JVal) (ns sn sv inn : Option String) : Option JVal :=
  jsonLoads (safeSub (templateMapping ns sn sv inn) (dumps raw))

/-- A Python runtime error class raised by `configure_logging`. -/
inductive PyErr where
  | keyError : PyErr
  | typeError : PyErr
  | valueError : PyErr
  | attributeError : PyErr
deriving DecidableEq

/-- The process-wide state `configure_logging` touches: the set of
existing filesystem directories and the active logging configuration
(what the last `logging.config.dictConfig` call installed). -/
structure LogState where
  dirs : List String
  applied : Option JVal

/-- Python dict lookup `d[k]` on a parsed JSON object. -/
def lookupAssoc (k : String) : List (String × JVal) → Option JVal
  | [] => none
  | (k2, v) :: t => if k2 = k then some v else lookupAssoc k t

/-- All proper prefixes of a path at `/` boundaries: the ancestor
directories `os.makedirs` would create along the way. -/
def pathAncestors (d : String) : List String :=
  (List.range d.data.length).filterMap fun i =>
    if d.data.get? i = some '/' ∧ 0 < i then some (String.mk (d.data.take i)) else none

/-- `os.makedirs(d)`: records `d` and its missing ancestors as existing. -/
def makedirs (d : String) (dirs : List String) : List String :=
  d :: pathAncestors d ++ dirs

/-- One iteration of the directory loop of `configure_logging`
(lines 139-143) on one handler spec, parameterised by `dirAbs`, the
environment-dependent `os.path.dirname(os.path.abspath(...))`.
`"filename" in handler` is Python `in`: key test on a dict, substring
test on a string, membership on a list, `TypeError` otherwise. -/
def ensureDir (dirAbs : String → String) (h : JVal) (dirs : List String) :
    List String × Option PyErr :=
  match h with
  | .obj fields =>
    match lookupAssoc "filename" fields with
    | some (.str f) =>
      let d := dirAbs f
      if d ∈ dirs then (dirs, none) else (makedirs d dirs, none)
    | some _ => (dirs, some .typeError)
    | none => (dirs, none)
  | .str s =>
    if "filename".data <:+: s.data then (dirs, some .typeError) else (dirs, none)
  | .arr xs =>
    if xs.any fun v => match v with | .str s => s = "filename" | _ => false
    then (dirs, some .typeError) else (dirs, none)
  | _ => (dirs, some .typeError)

/-- The directory loop of `configure_logging` over all handler specs,
stopping at the first error as a raised exception would. -/
def ensureDirs (dirAbs : String → String) (hs : List JVal) (dirs : List String) :
    List String × Option PyErr :=
  match hs with
  | [] => (dirs, none)
  | h :: t =>
    match ensureDir dirAbs h dirs with
    | (d2, none) => ensureDirs dirAbs t d2
    | (d2, some e) => (d2, some e)

/-- `logging.config.dictConfig`: replaces the process-wide logging
configuration wholesale. -/
def dictConfig (cfg : JVal) (st : LogState) : LogState :=
  { st with applied := some cfg }

/-- `configure_logging(raw_config, namespace=None, system_name=None,
system_version=None, instance_name=None)` (lines 88-145): serialize,
safe-substitute, deserialize, ensure directories for file handlers,
then apply. Returns the final state and the raised error, if any;
on an error the state holds whatever had been mutated up to it. -/
def configure_logging (dirAbs : String → String) (raw : JVal)
    (ns sn sv inn : Option String) (st : LogState) : LogState × Option PyErr :=
  match templatedConfig raw ns sn sv inn with
  | none => (st, some .valueError)
  | some cfg =>
    match cfg with
    | .obj kvs =>
      match lookupAssoc "handlers" kvs with
      | none => (st, some .keyError)
      | some (.obj hkvs) =>
        match ensureDirs dirAbs (hkvs.map Prod.snd) st.dirs with
        | (dirs2, none) => (dictConfig cfg { st with dirs := dirs2 }, none)
        | (dirs2, some e) => ({ st with dirs := dirs2 }, some e)
      | some _ => (st, some .attributeError)
    | _ => (st, some .typeError)

/-- `DEFAULT_LOGGERS` (log.py lines 40-44): noise suppression for three
third-party loggers. -/
def DEFAULT_LOGGERS : List (String × JVal) :=
  [("pika", .obj [("level", .str "ERROR")]),
   ("requests.packages.urllib3.connectionpool", .obj [("level", .str "WARN")]),
   ("yapconf", .obj [("level", .str "WARN")])]

/-- `DEFAULT_FORMAT` (log.py line 49). -/
def DEFAULT_FORMAT : String := "%(asctime)s - %(name)s - %(levelname)s - %(message)s"

/-- `DEFAULT_FORMATTERS` (log.py line 50). -/
def DEFAULT_FORMATTERS : List (String × JVal) :=
  [("default", .obj [("format", .str DEFAULT_FORMAT)])]

/-- `DEFAULT_HANDLERS` (log.py lines 58-64). -/
def DEFAULT_HANDLERS : List (String × JVal) :=
  [("default", .obj
    [("class", .str "logging.StreamHandler"),
     ("formatter", .str "default"),
     ("stream", .str "ext://sys.stdout")])]

/-- The `root` entry of a Python logging configuration dict. -/
structure RootSpec where
  level : String
  rootHandlers : List String
deriving DecidableEq

/-- The fixed-shape Python logging configuration dict built by
`default_config` and `convert_logging_config`. -/
structure PyLoggingConfig where
  version : Nat
  disable_existing_loggers : Bool
  formatters : List (String × JVal)
  handlers : List (String × JVal)
  loggers : List (String × JVal)
  root : Option RootSpec

/-- `DEFAULT_PLUGIN_LOGGING_TEMPLATE` (log.py lines 67-73). -/
def DEFAULT_PLUGIN_LOGGING_TEMPLATE : PyLoggingConfig :=
  { version := 1
    disable_existing_loggers := false
    formatters := []
    handlers := []
    loggers := DEFAULT_LOGGERS
    root := none }

/-- `default_config(level="INFO")` (log.py lines 76-85). -/
def default_config (level : String := "INFO") : PyLoggingConfig :=
  { version := 1
    disable_existing_loggers := false
    formatters := DEFAULT_FORMATTERS
    handlers := DEFAULT_HANDLERS
    loggers := DEFAULT_LOGGERS
    root := some { level := level, rootHandlers := ["default"] } }

/-- The Beergarden `LoggingConfig` object consumed by
`convert_logging_config`: a `level` and possibly-absent `handlers` and
`formatters` mappings. -/
structure RemoteLoggingConfig where
  level : String
  handlers : Option (List (String × JVal))
  formatters : Option (List (String × JVal))

/-- Python truthiness of a possibly-`None` mapping: `None` and the
empty dict are falsy. -/
def pyTruthy {α : Type} : Option (List α) → Bool
  | none => false
  | some l => !l.isEmpty

/-- `convert_logging_config(logging_config)` (log.py lines 163-191):
start from the template, take the remote handlers/formatters when
truthy and the built-in defaults otherwise, and derive `root` from the
level and the keys of the resolved handlers mapping. -/
def convert_logging_config (lc : RemoteLoggingConfig) : PyLoggingConfig :=
  let handlers := if pyTruthy lc.handlers then lc.handlers.getD [] else DEFAULT_HANDLERS
  let formatters := if pyTruthy lc.formatters then lc.formatters.getD [] else DEFAULT_FORMATTERS
  { DEFAULT_PLUGIN_LOGGING_TEMPLATE with
    handlers := handlers
    formatters := formatters
    root := some { level := lc.level, rootHandlers := handlers.map Prod.fst } }

/-- An observable event of the deprecated entry points: a
`warnings.warn(..., DeprecationWarning)` call or the final
`logging.config.dictConfig` application. -/
inductive TraceEvent where
  | deprecationWarning (msg : String) : TraceEvent
  | applyConfig (cfg : PyLoggingConfig) : TraceEvent

/-- The warning text of `setup_logger` (log.py lines 213-218). -/
def setup_logger_warning : String :=
  "This function is deprecated and will be removed in version 4.0, please consider using \x27configure_logging\x27 instead."

/-- The warning text of `get_python_logging_config` (log.py lines 249-254). -/
def get_python_logging_config_warning : String :=
  "This function is deprecated and will be removed in version 4.0, please consider using \x27get_logging_config\x27 instead."

/-- `get_python_logging_config(...)` (log.py lines 231-265): warn, fetch
the remote config (the collaborator's reply is the `remote` argument),
convert it. Returns the emitted events and the result. -/
def get_python_logging_config_run (remote : RemoteLoggingConfig) :
    List TraceEvent × PyLoggingConfig :=
  ([.deprecationWarning get_python_logging_config_warning],
   convert_logging_config remote)

/-- `setup_logger(...)` (log.py lines 194-228): warn, delegate to
`get_python_logging_config`, then `logging.config.dictConfig` the
result. Returns the emitted events in order. -/
def setup_logger_run (remote : RemoteLoggingConfig) : List TraceEvent :=
  let fetched := get_python_logging_config_run remote
  .deprecationWarning setup_logger_warning :: fetched.1 ++ [.applyConfig fetched.2]

/-- Count of deprecation warnings in a trace. -/
def countDeprecationWarnings (evs : List TraceEvent) : Nat :=
  (evs.filter fun e => match e with
    | .deprecationWarning _ => true
    | _ => false).length

/-- The head of a character list is not a decimal digit (the shape of
the text that follows a serialized number inside a configuration). -/
def headNotDigit : List Char → Prop
  | [] => True
  | c :: _ => c.isDigit = false

/-- The placeholder occurrences that the substitution step of
`configure_logging` rewrites: the four recognized plain tokens, their
braced forms, and the `$$` escape of `string.Template`. -/
def templateTokens : List (List Char) :=
  ["$namespace".data, "$system_name".data,
   "$system_version".data, "$instance_name".data,
   "$\x7bnamespace\x7d".data, "$\x7bsystem_name\x7d".data,
   "$\x7bsystem_version\x7d".data, "$\x7binstance_name\x7d".data,
   "$$".data]

/-- No recognized placeholder occurrence anywhere in the text. -/
def noTemplateTokens (t : List Char) : Bool :=
  templateTokens.all fun tok => !(decide (tok <:+: t))

/-- A character that passes through JSON serialization, template
substitution and parsing unchanged: not a quote, not a backslash, not a
control character, not part of any placeholder. -/
def tameChar (c : Char) : Bool :=
  !(c = '"') && !(c = '\\') && !(c = '$') && 32 ≤ c.toNat

/-- A string of tame characters. -/
def tameStr (s : String) : Bool := s.data.all tameChar

/-- C3: for every level, `default_config(level)` has exactly the key
`"default"` in its handlers and formatters mappings, a root spec with
handlers `["default"]` and the supplied level (the source defaults the
argument to `"INFO"`, mirrored by the optional parameter of
`default_config`), version 1, and existing loggers not disabled; as a
total Lean function it is pure with no side effects and no errors. -/
theorem claim3_default_config_shape (level : String) :
    (default_config level).handlers.map Prod.fst = ["default"] ∧
    (default_config level).formatters.map Prod.fst = ["default"] ∧
    (default_config level).root =
      some { level := level, rootHandlers := ["default"] } ∧
    (default_config level).version = 1 ∧
    (default_config level).disable_existing_loggers = false :=
  ⟨rfl, rfl, rfl, rfl, rfl⟩

/-- C4: when the remote config's handlers and formatters are both empty
or absent (Python-falsy), `convert_logging_config` falls back to
`DEFAULT_HANDLERS` and `DEFAULT_FORMATTERS`, and the root handler list
is `["default"]`. -/
theorem claim4_convert_empty_defaults (lc : RemoteLoggingConfig)
    (hh : pyTruthy lc.handlers = false) (hf : pyTruthy lc.formatters = false) :
    (convert_logging_config lc).handlers = DEFAULT_HANDLERS ∧
    (convert_logging_config lc).formatters = DEFAULT_FORMATTERS ∧
    (convert_logging_config lc).root.map RootSpec.rootHandlers = some ["default"] := by
  refine ⟨?_, ?_, ?_⟩ <;> simp [convert_logging_config, hh, hf, DEFAULT_HANDLERS]

/-- Witness for C4 at the remote config with absent mappings. -/
theorem claim4_convert_empty_defaults_witness :
    pyTruthy (RemoteLoggingConfig.mk "INFO" none none).handlers = false ∧
    (convert_logging_config (RemoteLoggingConfig.mk "INFO" none none)).handlers =
      DEFAULT_HANDLERS :=
  ⟨rfl, (claim4_convert_empty_defaults (RemoteLoggingConfig.mk "INFO" none none)
      rfl rfl).1⟩

/-- C5: for a non-empty remote handlers mapping `H`,
`convert_logging_config` keeps `H` as the handlers mapping and the root
spec has the input's level and exactly the keys of `H` as its handler
list (so in particular the same key set, independent of order). -/
theorem claim5_convert_nonempty_handlers (lc : RemoteLoggingConfig)
    (hs : List (String × JVal)) (hh : lc.handlers = some hs) (hne : hs ≠ []) :
    (convert_logging_config lc).handlers = hs ∧
    (convert_logging_config lc).root =
      some { level := lc.level, rootHandlers := hs.map Prod.fst } ∧
    ∀ k : String,
      (∃ r, (convert_logging_config lc).root = some r ∧ k ∈ r.rootHandlers) ↔
        k ∈ hs.map Prod.fst := by
  have ht : pyTruthy (some hs) = true := by
    cases hs with
    | nil => exact absurd rfl hne
    | cons a t => rfl
  have hc : (convert_logging_config lc).handlers = hs := by
    simp [convert_logging_config, hh, ht]
  have hr : (convert_logging_config lc).root =
      some { level := lc.level, rootHandlers := hs.map Prod.fst } := by
    simp [convert_logging_config, hh, ht]
  refine ⟨hc, hr, ?_⟩
  intro k
  rw [hr]
  constructor
  · rintro ⟨r, hr2, hk⟩
    cases Option.some.inj hr2
    exact hk
  · intro hk
    exact ⟨_, rfl, hk⟩

/-- Witness for C5 at a one-handler remote config. -/
theorem claim5_convert_nonempty_handlers_witness :
    (RemoteLoggingConfig.mk "WARN" (some [("h1", JVal.null)]) none).handlers =
      some [("h1", JVal.null)] ∧
    (convert_logging_config
      (RemoteLoggingConfig.mk "WARN" (some [("h1", JVal.null)]) none)).root =
      some { level := "WARN", rootHandlers := ["h1"] } :=
  ⟨rfl, (claim5_convert_nonempty_handlers
      (RemoteLoggingConfig.mk "WARN" (some [("h1", JVal.null)]) none)
      [("h1", JVal.null)] rfl (by simp)).2.1⟩

/-- C6: for every remote config, `convert_logging_config` yields
version 1, keeps existing loggers enabled, and fixes the loggers
mapping to `DEFAULT_LOGGERS`, the noise-suppression table for the
three named third-party loggers; it is a deterministic pure mapping
(a total Lean function). -/
theorem claim6_convert_fixed_fields (lc : RemoteLoggingConfig) :
    (convert_logging_config lc).version = 1 ∧
    (convert_logging_config lc).disable_existing_loggers = false ∧
    (convert_logging_config lc).loggers = DEFAULT_LOGGERS ∧
    DEFAULT_LOGGERS.map Prod.fst =
      ["pika", "requests.packages.urllib3.connectionpool", "yapconf"] :=
  ⟨rfl, rfl, rfl, rfl⟩

/-- C2 counterexample: a call to `setup_logger` emits two deprecation
warnings, not exactly one — `setup_logger` itself warns and then its
delegate `get_python_logging_config` warns again. -/
theorem claim2_counterexample :
    countDeprecationWarnings
      (setup_logger_run (RemoteLoggingConfig.mk "INFO" none none)) = 2 ∧
    (2 : Nat) ≠ 1 :=
  ⟨rfl, by decide⟩

set_option maxRecDepth 4096 in
/-- C2 amended: every call to `setup_logger` emits exactly two
deprecation warnings — the first referencing `configure_logging` as the
replacement, the second (from the delegated `get_python_logging_config`)
referencing `get_logging_config` — and both precede the application of
the configuration to the process-wide logging subsystem. -/
theorem claim2_setup_logger_warnings (remote : RemoteLoggingConfig) :
    setup_logger_run remote =
      [.deprecationWarning setup_logger_warning,
       .deprecationWarning get_python_logging_config_warning,
       .applyConfig (convert_logging_config remote)] ∧
    countDeprecationWarnings (setup_logger_run remote) = 2 ∧
    "configure_logging".data <:+: setup_logger_warning.data ∧
    "get_logging_config".data <:+: get_python_logging_config_warning.data :=
  ⟨rfl, rfl, by decide, by decide⟩

theorem strEta (s : String) : String.mk s.data = s := rfl

theorem readStr_cons_quote (rest : List Char) :
    readStr ('"' :: rest) = some ([], rest) := by
  rw [readStr.eq_def]
  simp

theorem readStr_cons_esc (e : Char) (r : List Char) :
    readStr ('\\' :: e :: r) =
      match unescChar e with
      | none => none
      | some u =>
        match readStr r with
        | some (cs, r3) => some (u :: cs, r3)
        | none => none := by
  rw [readStr.eq_def]
  simp

theorem readStr_cons_other (c : Char) (r : List Char) (h1 : c ≠ '"')
    (h2 : c ≠ '\\') :
    readStr (c :: r) =
      match readStr r with
      | some (cs, r2) => some (c :: cs, r2)
      | none => none := by
  rw [readStr.eq_def]
  simp [h1, h2]

theorem readStr_escString (cs : List Char) : ∀ rest : List Char,
    readStr (escString cs ++ '"' :: rest) = some (cs, rest) := by
  induction cs with
  | nil =>
    intro rest
    simp only [escString, List.flatMap_nil, List.nil_append]
    exact readStr_cons_quote rest
  | cons c t ih =>
    intro rest
    have hs : escString (c :: t) = escChar c ++ escString t := by
      simp [escString]
    rw [hs, List.append_assoc]
    by_cases h1 : c = '"'
    · subst h1
      rw [show escChar '"' = ['\\', '"'] from rfl]
      simp only [List.cons_append, List.nil_append]
      rw [readStr_cons_esc]
      simp [unescChar, ih]
    by_cases h2 : c = '\\'
    · subst h2
      rw [show escChar '\\' = ['\\', '\\'] from rfl]
      simp only [List.cons_append, List.nil_append]
      rw [readStr_cons_esc]
      simp [unescChar, ih]
    by_cases h3 : c = '\n'
    · subst h3
      rw [show escChar '\n' = ['\\', 'n'] from rfl]
      simp only [List.cons_append, List.nil_append]
      rw [readStr_cons_esc]
      simp [unescChar, ih]
    by_cases h4 : c = '\t'
    · subst h4
      rw [show escChar '\t' = ['\\', 't'] from rfl]
      simp only [List.cons_append, List.nil_append]
      rw [readStr_cons_esc]
      simp [unescChar, ih]
    by_cases h5 : c = '\r'
    · subst h5
      rw [show escChar '\r' = ['\\', 'r'] from rfl]
      simp only [List.cons_append, List.nil_append]
      rw [readStr_cons_esc]
      simp [unescChar, ih]
    by_cases h6 : c = '\x08'
    · subst h6
      rw [show escChar '\x08' = ['\\', 'b'] from rfl]
      simp only [List.cons_append, List.nil_append]
      rw [readStr_cons_esc]
      simp [unescChar, ih]
    by_cases h7 : c = '\x0c'
    · subst h7
      rw [show escChar '\x0c' = ['\\', 'f'] from rfl]
      simp only [List.cons_append, List.nil_append]
      rw [readStr_cons_esc]
      simp [unescChar, ih]
    · have he : escChar c = [c] := by
        simp [escChar, h1, h2, h3, h4, h5, h6, h7]
      rw [he, List.singleton_append, readStr_cons_other c _ h1 h2]
      simp [ih]

theorem readStr_tame (cs : List Char) (h : ∀ c ∈ cs, tameChar c = true) :
    ∀ rest : List Char, readStr (cs ++ '"' :: rest) = some (cs, rest) := by
  induction cs with
  | nil =>
    intro rest
    simpa using readStr_cons_quote rest
  | cons c t ih =>
    intro rest
    have hc := h c (by simp)
    simp only [tameChar, Bool.and_eq_true, Bool.not_eq_true',
      decide_eq_false_iff_not] at hc
    have ih2 := ih (fun d hd => h d (by simp [hd])) rest
    rw [List.cons_append, readStr_cons_other c _ hc.1.1.1 hc.1.1.2]
    simp [ih2]

theorem digitChar_isDigit (d : Nat) (h : d < 10) : (digitChar d).isDigit = true := by
  interval_cases d <;> decide

theorem digitChar_val (d : Nat) (h : d < 10) : (digitChar d).toNat - 48 = d := by
  interval_cases d <;> decide

theorem natDigitsRev_digits (n : Nat) : ∀ c ∈ natDigitsRev n, c.isDigit = true := by
  induction n using Nat.strong_induction_on with
  | _ n ih =>
    rw [natDigitsRev]
    split
    · simp
    · next hn =>
      intro c hc
      rcases List.mem_cons.mp hc with rfl | hm
      · exact digitChar_isDigit _ (Nat.mod_lt _ (by decide))
      · exact ih (n / 10) (Nat.div_lt_self (Nat.pos_of_ne_zero hn) (by decide)) c hm

theorem natChars_digits (n : Nat) : ∀ c ∈ natChars n, c.isDigit = true := by
  unfold natChars
  split
  · intro c hc
    rcases List.mem_singleton.mp hc with rfl
    decide
  · intro c hc
    exact natDigitsRev_digits n c (List.mem_reverse.mp hc)

theorem natChars_ne_nil (n : Nat) : natChars n ≠ [] := by
  unfold natChars
  split
  · simp
  · next hn =>
    rw [natDigitsRev]
    simp [hn]

theorem foldl_digits_acc (t : List Char) : ∀ a : Nat,
    List.foldl (fun a c => 10 * a + (c.toNat - 48)) a t =
      a * 10 ^ t.length + digitsToNat t := by
  induction t with
  | nil => intro a; simp [digitsToNat]
  | cons c t ih =>
    intro a
    simp only [digitsToNat, List.foldl_cons, List.length_cons]
    rw [ih, ih (10 * 0 + (c.toNat - 48))]
    ring

theorem digitsToNat_natDigitsRev (n : Nat) :
    digitsToNat (natDigitsRev n).reverse = n := by
  induction n using Nat.strong_induction_on with
  | _ n ih =>
    rw [natDigitsRev]
    split
    · next h => simp [digitsToNat, h]
    · next h =>
      simp only [List.reverse_cons]
      have hfold : digitsToNat ((natDigitsRev (n / 10)).reverse ++ [digitChar (n % 10)]) =
          10 * digitsToNat (natDigitsRev (n / 10)).reverse +
            ((digitChar (n % 10)).toNat - 48) := by
        simp only [digitsToNat, List.foldl_append, List.foldl_cons, List.foldl_nil]
      rw [hfold, ih (n / 10) (Nat.div_lt_self (Nat.pos_of_ne_zero h) (by decide)),
        digitChar_val _ (Nat.mod_lt _ (by decide))]
      omega

theorem digitsToNat_natChars (n : Nat) : digitsToNat (natChars n) = n := by
  unfold natChars
  split
  · next h => subst h; decide
  · exact digitsToNat_natDigitsRev n

theorem takeWhile_digits_append (l1 l2 : List Char)
    (h1 : ∀ c ∈ l1, c.isDigit = true) (h2 : headNotDigit l2) :
    (l1 ++ l2).takeWhile Char.isDigit = l1 ∧
      (l1 ++ l2).dropWhile Char.isDigit = l2 := by
  induction l1 with
  | nil =>
    cases l2 with
    | nil => simp
    | cons c t =>
      simp only [headNotDigit] at h2
      simp [List.takeWhile_cons, List.dropWhile_cons, h2]
  | cons c t ih =>
    have hc : c.isDigit = true := h1 c (by simp)
    have ht := ih (fun d hd => h1 d (by simp [hd]))
    simp [List.takeWhile_cons, List.dropWhile_cons, hc, ht.1, ht.2]

theorem isDigit_ne_of (c x : Char) (h : c.isDigit = true)
    (hx : x.isDigit = false) : c ≠ x := by
  rintro rfl
  rw [hx] at h
  cases h

theorem readVal_null (f : Nat) (r : List Char) :
    readVal (f + 1) ('n' :: 'u' :: 'l' :: 'l' :: r) = some (.null, r) := by
  rw [readVal.eq_def]
  simp

theorem readVal_true (f : Nat) (r : List Char) :
    readVal (f + 1) ('t' :: 'r' :: 'u' :: 'e' :: r) = some (.bool true, r) := by
  rw [readVal.eq_def]
  simp

theorem readVal_false (f : Nat) (r : List Char) :
    readVal (f + 1) ('f' :: 'a' :: 'l' :: 's' :: 'e' :: r) = some (.bool false, r) := by
  rw [readVal.eq_def]
  simp

theorem readVal_quote (f : Nat) (r : List Char) :
    readVal (f + 1) ('"' :: r) =
      match readStr r with
      | some (cs, r2) => some (.str (String.mk cs), r2)
      | none => none := by
  rw [readVal.eq_def]
  simp

theorem readVal_lbrack (f : Nat) (r : List Char) :
    readVal (f + 1) ('[' :: r) = readArrBody f r := by
  rw [readVal.eq_def]
  simp

theorem readVal_lbrace (f : Nat) (r : List Char) :
    readVal (f + 1) ('\x7b' :: r) = readObjBody f r := by
  rw [readVal.eq_def]
  simp

theorem readVal_digit (f : Nat) (c : Char) (r : List Char) (h : c.isDigit = true) :
    readVal (f + 1) (c :: r) =
      some (.num (digitsToNat ((c :: r).takeWhile Char.isDigit)),
        (c :: r).dropWhile Char.isDigit) := by
  have hne : ∀ x : Char, x.isDigit = false → c ≠ x := fun x hx => isDigit_ne_of c x h hx
  rw [readVal.eq_def]
  simp [hne 'n' (by decide), hne 't' (by decide), hne 'f' (by decide),
    hne '"' (by decide), hne '[' (by decide), hne '\x7b' (by decide), h]

theorem readArrBody_rbrack (f : Nat) (r : List Char) :
    readArrBody (f + 1) (']' :: r) = some (.arr [], r) := by
  rw [readArrBody.eq_def]
  simp

theorem readArrBody_cons (f : Nat) (c : Char) (r : List Char) (h : c ≠ ']') :
    readArrBody (f + 1) (c :: r) =
      match readVal f (c :: r) with
      | some (v, r1) =>
        match readArrTail f r1 with
        | some (vs, r2) => some (.arr (v :: vs), r2)
        | none => none
      | none => none := by
  rw [readArrBody.eq_def]
  simp [h]

theorem readArrTail_rbrack (f : Nat) (r : List Char) :
    readArrTail (f + 1) (']' :: r) = some ([], r) := by
  rw [readArrTail.eq_def]
  simp

theorem readArrTail_comma (f : Nat) (r : List Char) :
    readArrTail (f + 1) (',' :: ' ' :: r) =
      match readVal f r with
      | some (v, r2) =>
        match readArrTail f r2 with
        | some (vs, r3) => some (v :: vs, r3)
        | none => none
      | none => none := by
  rw [readArrTail.eq_def]
  simp

theorem readObjBody_rbrace (f : Nat) (r : List Char) :
    readObjBody (f + 1) ('\x7d' :: r) = some (.obj [], r) := by
  rw [readObjBody.eq_def]
  simp

theorem readObjBody_quote (f : Nat) (r : List Char) :
    readObjBody (f + 1) ('"' :: r) =
      match readStr r with
      | some (kcs, r1) =>
        match r1 with
        | ':' :: ' ' :: r2 =>
          match readVal f r2 with
          | some (v, r3) =>
            match readObjTail f r3 with
            | some (kvs, r4) => some (.obj ((String.mk kcs, v) :: kvs), r4)
            | none => none
          | none => none
        | _ => none
      | none => none := by
  rw [readObjBody.eq_def]
  simp

theorem readObjTail_rbrace (f : Nat) (r : List Char) :
    readObjTail (f + 1) ('\x7d' :: r) = some ([], r) := by
  rw [readObjTail.eq_def]
  simp

theorem readObjTail_comma (f : Nat) (r : List Char) :
    readObjTail (f + 1) (',' :: ' ' :: '"' :: r) =
      match readStr r with
      | some (kcs, r2) =>
        match r2 with
        | ':' :: ' ' :: r3 =>
          match readVal f r3 with
          | some (v, r4) =>
            match readObjTail f r4 with
            | some (kvs, r5) => some ((String.mk kcs, v) :: kvs, r5)
            | none => none
          | none => none
        | _ => none
      | none => none := by
  rw [readObjTail.eq_def]
  simp

theorem dumps_head (v : JVal) :
    ∃ c cs, dumps v = c :: cs ∧ c ≠ ']' ∧ c ≠ ',' ∧ c ≠ '\x7d' := by
  cases v with
  | null =>
    refine ⟨'n', "ull".data, by simp [dumps], ?_, ?_, ?_⟩ <;> decide
  | bool b =>
    cases b with
    | true => refine ⟨'t', "rue".data, by simp [dumps], ?_, ?_, ?_⟩ <;> decide
    | false => refine ⟨'f', "alse".data, by simp [dumps], ?_, ?_, ?_⟩ <;> decide
  | num n =>
    obtain ⟨c, cs, hc⟩ := List.exists_cons_of_ne_nil (natChars_ne_nil n)
    have hd : c.isDigit = true := natChars_digits n c (by rw [hc]; simp)
    exact ⟨c, cs, by simp [dumps, hc], isDigit_ne_of c ']' hd (by decide),
      isDigit_ne_of c ',' hd (by decide), isDigit_ne_of c '\x7d' hd (by decide)⟩
  | str s =>
    exact ⟨'"', escString s.data ++ ['"'], by simp [dumps], by decide, by decide,
      by decide⟩
  | arr xs =>
    exact ⟨'[', dumpsElems xs ++ [']'], by simp [dumps], by decide, by decide,
      by decide⟩
  | obj kvs =>
    exact ⟨'\x7b', dumpsMembers kvs ++ ['\x7d'], by simp [dumps], by decide,
      by decide, by decide⟩

theorem headNotDigit_elems (xs : List JVal) (rest : List Char) :
    headNotDigit (dumpsElemsTail xs ++ ']' :: rest) := by
  cases xs with
  | nil => simp [dumpsElemsTail, headNotDigit]
  | cons v t => simp [dumpsElemsTail, headNotDigit]

theorem headNotDigit_members (kvs : List (String × JVal)) (rest : List Char) :
    headNotDigit (dumpsMembersTail kvs ++ '\x7d' :: rest) := by
  cases kvs with
  | nil => simp [dumpsMembersTail, headNotDigit]
  | cons kv t =>
    obtain ⟨k, v⟩ := kv
    simp [dumpsMembersTail, headNotDigit]

theorem jsize_pos (v : JVal) : 1 ≤ jsize v := by
  cases v <;> simp [jsize] <;> omega

theorem read_dumps (fuel : Nat) :
    (∀ (v : JVal) (rest : List Char), jsize v ≤ fuel → headNotDigit rest →
      readVal fuel (dumps v ++ rest) = some (v, rest)) ∧
    (∀ (xs : List JVal) (rest : List Char), 1 + jsizeList xs ≤ fuel →
      readArrTail fuel (dumpsElemsTail xs ++ ']' :: rest) = some (xs, rest)) ∧
    (∀ (kvs : List (String × JVal)) (rest : List Char), 1 + jsizeObj kvs ≤ fuel →
      readObjTail fuel (dumpsMembersTail kvs ++ '\x7d' :: rest) = some (kvs, rest)) := by
  induction fuel using Nat.strong_induction_on with
  | _ fuel ih =>
    refine ⟨?_, ?_, ?_⟩
    · intro v rest hsz hrest
      obtain ⟨f, rfl⟩ : ∃ f, fuel = f + 1 :=
        ⟨fuel - 1, by have := jsize_pos v; omega⟩
      cases v with
      | null =>
        rw [show dumps .null ++ rest = 'n' :: 'u' :: 'l' :: 'l' :: rest by
          simp [dumps]]
        exact readVal_null f rest
      | bool b =>
        cases b with
        | false =>
          rw [show dumps (.bool false) ++ rest =
            'f' :: 'a' :: 'l' :: 's' :: 'e' :: rest by simp [dumps]]
          exact readVal_false f rest
        | true =>
          rw [show dumps (.bool true) ++ rest = 't' :: 'r' :: 'u' :: 'e' :: rest by
            simp [dumps]]
          exact readVal_true f rest
      | num n =>
        obtain ⟨c, cs, hc⟩ := List.exists_cons_of_ne_nil (natChars_ne_nil n)
        have hd : c.isDigit = true := natChars_digits n c (by rw [hc]; simp)
        rw [show dumps (.num n) ++ rest = c :: (cs ++ rest) by simp [dumps, hc]]
        rw [readVal_digit f c (cs ++ rest) hd]
        rw [show c :: (cs ++ rest) = natChars n ++ rest by rw [hc]; simp]
        obtain ⟨ht, hdw⟩ := takeWhile_digits_append (natChars n) rest
          (natChars_digits n) hrest
        rw [ht, hdw, digitsToNat_natChars]
      | str s =>
        rw [show dumps (.str s) ++ rest = '"' :: (escString s.data ++ '"' :: rest) by
          simp [dumps]]
        rw [readVal_quote, readStr_escString]
      | arr xs =>
        simp only [jsize] at hsz
        rw [show dumps (.arr xs) ++ rest = '[' :: (dumpsElems xs ++ ']' :: rest) by
          simp [dumps]]
        rw [readVal_lbrack]
        obtain ⟨g, rfl⟩ := Nat.exists_eq_succ_of_ne_zero (show f ≠ 0 by omega)
        cases xs with
        | nil =>
          rw [show dumpsElems ([] : List JVal) ++ ']' :: rest = ']' :: rest by
            simp [dumpsElems]]
          exact readArrBody_rbrack g rest
        | cons x t =>
          simp only [jsizeList] at hsz
          obtain ⟨c, cs, hc, hne, -, -⟩ := dumps_head x
          rw [show dumpsElems (x :: t) ++ ']' :: rest =
              c :: (cs ++ (dumpsElemsTail t ++ ']' :: rest)) by
            simp [dumpsElems, hc]]
          rw [readArrBody_cons g c _ hne]
          rw [show c :: (cs ++ (dumpsElemsTail t ++ ']' :: rest)) =
              dumps x ++ (dumpsElemsTail t ++ ']' :: rest) by simp [hc]]
          have h1 := (ih g (by omega)).1 x (dumpsElemsTail t ++ ']' :: rest)
            (by omega) (headNotDigit_elems t rest)
          have h2 := (ih g (by omega)).2.1 t rest (by omega)
          simp [h1, h2]
      | obj kvs =>
        simp only [jsize] at hsz
        rw [show dumps (.obj kvs) ++ rest =
            '\x7b' :: (dumpsMembers kvs ++ '\x7d' :: rest) by simp [dumps]]
        rw [readVal_lbrace]
        obtain ⟨g, rfl⟩ := Nat.exists_eq_succ_of_ne_zero (show f ≠ 0 by omega)
        cases kvs with
        | nil =>
          rw [show dumpsMembers ([] : List (String × JVal)) ++ '\x7d' :: rest =
              '\x7d' :: rest by simp [dumpsMembers]]
          exact readObjBody_rbrace g rest
        | cons kv t =>
          obtain ⟨k, v⟩ := kv
          simp only [jsizeObj] at hsz
          rw [show dumpsMembers ((k, v) :: t) ++ '\x7d' :: rest =
              '"' :: (escString k.data ++
                '"' :: ':' :: ' ' :: (dumps v ++ (dumpsMembersTail t ++ '\x7d' :: rest))) by
            simp [dumpsMembers]]
          rw [readObjBody_quote, readStr_escString]
          have h1 := (ih g (by omega)).1 v (dumpsMembersTail t ++ '\x7d' :: rest)
            (by omega) (headNotDigit_members t rest)
          have h2 := (ih g (by omega)).2.2 t rest (by omega)
          simp [h1, h2, strEta]
    · intro xs rest hsz
      obtain ⟨f, rfl⟩ : ∃ f, fuel = f + 1 := ⟨fuel - 1, by omega⟩
      cases xs with
      | nil =>
        rw [show dumpsElemsTail ([] : List JVal) ++ ']' :: rest = ']' :: rest by
          simp [dumpsElemsTail]]
        exact readArrTail_rbrack f rest
      | cons v t =>
        simp only [jsizeList] at hsz
        rw [show dumpsElemsTail (v :: t) ++ ']' :: rest =
            ',' :: ' ' :: (dumps v ++ (dumpsElemsTail t ++ ']' :: rest)) by
          simp [dumpsElemsTail]]
        rw [readArrTail_comma]
        have h1 := (ih f (by omega)).1 v (dumpsElemsTail t ++ ']' :: rest)
          (by omega) (headNotDigit_elems t rest)
        have h2 := (ih f (by omega)).2.1 t rest (by omega)
        simp [h1, h2]
    · intro kvs rest hsz
      obtain ⟨f, rfl⟩ : ∃ f, fuel = f + 1 := ⟨fuel - 1, by omega⟩
      cases kvs with
      | nil =>
        rw [show dumpsMembersTail ([] : List (String × JVal)) ++ '\x7d' :: rest =
            '\x7d' :: rest by simp [dumpsMembersTail]]
        exact readObjTail_rbrace f rest
      | cons kv t =>
        obtain ⟨k, v⟩ := kv
        simp only [jsizeObj] at hsz
        rw [show dumpsMembersTail ((k, v) :: t) ++ '\x7d' :: rest =
            ',' :: ' ' :: '"' :: (escString k.data ++
              '"' :: ':' :: ' ' :: (dumps v ++ (dumpsMembersTail t ++ '\x7d' :: rest))) by
          simp [dumpsMembersTail]]
        rw [readObjTail_comma, readStr_escString]
        have h1 := (ih f (by omega)).1 v (dumpsMembersTail t ++ '\x7d' :: rest)
          (by omega) (headNotDigit_members t rest)
        have h2 := (ih f (by omega)).2.2 t rest (by omega)
        simp [h1, h2, strEta]

mutual

theorem jsize_le_dumps (v : JVal) : jsize v ≤ 2 * (dumps v).length := by
  cases v with
  | null => simp [jsize, dumps]
  | bool b => cases b <;> simp [jsize, dumps]
  | num n =>
    have h := List.length_pos.mpr (natChars_ne_nil n)
    simp only [jsize, dumps]
    omega
  | str s =>
    simp only [jsize, dumps, List.length_cons, List.length_append]
    omega
  | arr xs =>
    cases xs with
    | nil => simp [jsize, jsizeList, dumps, dumpsElems]
    | cons x t =>
      have h1 := jsize_le_dumps x
      have h2 := jsizeList_le_dumps t
      simp only [jsize, jsizeList, dumps, dumpsElems, List.length_cons,
        List.length_append]
      omega
  | obj kvs =>
    cases kvs with
    | nil => simp [jsize, jsizeObj, dumps, dumpsMembers]
    | cons kv t =>
      obtain ⟨k, v⟩ := kv
      have h1 := jsize_le_dumps v
      have h2 := jsizeObj_le_dumps t
      simp only [jsize, jsizeObj, dumps, dumpsMembers, List.length_cons,
        List.length_append]
      omega

theorem jsizeList_le_dumps (xs : List JVal) :
    jsizeList xs ≤ 2 * (dumpsElemsTail xs).length := by
  cases xs with
  | nil => simp [jsizeList, dumpsElemsTail]
  | cons v t =>
    have h1 := jsize_le_dumps v
    have h2 := jsizeList_le_dumps t
    simp only [jsizeList, dumpsElemsTail, List.length_cons, List.length_append]
    omega

theorem jsizeObj_le_dumps (kvs : List (String × JVal)) :
    jsizeObj kvs ≤ 2 * (dumpsMembersTail kvs).length := by
  cases kvs with
  | nil => simp [jsizeObj, dumpsMembersTail]
  | cons kv t =>
    obtain ⟨k, v⟩ := kv
    have h1 := jsize_le_dumps v
    have h2 := jsizeObj_le_dumps t
    simp only [jsizeObj, dumpsMembersTail, List.length_cons, List.length_append]
    omega

end

theorem jsonLoads_dumps (v : JVal) : jsonLoads (dumps v) = some v := by
  have hb : jsize v ≤ 2 * (dumps v).length + 1 := by
    have := jsize_le_dumps v
    omega
  have h := (read_dumps (2 * (dumps v).length + 1)).1 v [] hb trivial
  rw [List.append_nil] at h
  rw [jsonLoads, h]

theorem lookupStr_templateMapping_keys (q : String) (ns sn sv inn : Option String)
    (v : String) (h : lookupStr q (templateMapping ns sn sv inn) = some v) :
    q = "namespace" ∨ q = "system_name" ∨ q = "system_version" ∨
      q = "instance_name" := by
  simp only [templateMapping, lookupStr] at h
  split_ifs at h with h1 h2 h3 h4
  · exact Or.inl h1.symm
  · exact Or.inr (Or.inl h2.symm)
  · exact Or.inr (Or.inr (Or.inl h3.symm))
  · exact Or.inr (Or.inr (Or.inr h4.symm))

theorem templateTokens_plain (q : String)
    (h : q = "namespace" ∨ q = "system_name" ∨ q = "system_version" ∨
      q = "instance_name") :
    ('$' :: q.data) ∈ templateTokens := by
  rcases h with rfl | rfl | rfl | rfl <;> simp [templateTokens]

theorem templateTokens_braced (q : String)
    (h : q = "namespace" ∨ q = "system_name" ∨ q = "system_version" ∨
      q = "instance_name") :
    ('$' :: '\x7b' :: (q.data ++ ['\x7d'])) ∈ templateTokens := by
  rcases h with rfl | rfl | rfl | rfl <;> simp [templateTokens]

theorem safeSub_id_bounded (ns sn sv inn : Option String) : ∀ (n : Nat) (t : List Char),
    t.length ≤ n → (∀ tok ∈ templateTokens, ¬ (tok <:+: t)) →
    safeSub (templateMapping ns sn sv inn) t = t := by
  intro n
  induction n with
  | zero =>
    intro t hl _
    cases t with
    | nil => rw [safeSub.eq_def]
    | cons c r => simp at hl
  | succ n ih =>
    intro t hl hcl
    cases t with
    | nil => rw [safeSub.eq_def]
    | cons c rest =>
      by_cases hc : c = '$'
      · subst hc
        cases rest with
        | nil =>
          rw [safeSub.eq_def]
          simp
        | cons c2 r =>
          by_cases hc2 : c2 = '$'
          · subst hc2
            exact absurd (show ("$$".data : List Char) <:+: '$' :: '$' :: r from
              ⟨[], r, by simp⟩) (hcl "$$".data (by simp [templateTokens]))
          by_cases hb : c2 = '\x7b'
          · subst hb
            rw [safeSub.eq_def]
            simp only
            split
            · next ic itail r3 htw hdw =>
              have hr : (ic :: itail) ++ '\x7d' :: r3 = r := by
                rw [← htw, ← hdw]
                exact List.takeWhile_append_dropWhile isIdChar r
              by_cases hic : isIdStart ic = true
              · rw [if_pos hic]
                cases hlook : lookupStr (String.mk (ic :: itail))
                    (templateMapping ns sn sv inn) with
                | some v =>
                  have hkeys := lookupStr_templateMapping_keys _ ns sn sv inn v hlook
                  have hmem := templateTokens_braced _ hkeys
                  have hdata : (String.mk (ic :: itail)).data = ic :: itail := rfl
                  rw [hdata] at hmem
                  refine absurd (show ('$' :: '\x7b' :: ((ic :: itail) ++ ['\x7d'])) <:+:
                    '$' :: '\x7b' :: r from ⟨[], r3, ?_⟩) (hcl _ hmem)
                  rw [← hr]
                  simp
                | none =>
                  have hsuf : r3 <:+ '$' :: '\x7b' :: r := by
                    refine ⟨'$' :: '\x7b' :: ic :: itail ++ ['\x7d'], ?_⟩
                    rw [← hr]
                    simp
                  have h3 := ih r3 (by
                    have := congrArg List.length hr
                    simp at this hl ⊢
                    omega)
                    (fun tok hm hi => hcl tok hm (hi.trans hsuf.isInfix))
                  rw [h3, ← hr]
                  simp
              · rw [if_neg hic]
                have hsuf : r <:+ '$' :: '\x7b' :: r := ⟨['$', '\x7b'], rfl⟩
                rw [ih r (by simp at hl ⊢; omega)
                  (fun tok hm hi => hcl tok hm (hi.trans hsuf.isInfix))]
            · next _ _ =>
              have hsuf : r <:+ '$' :: '\x7b' :: r := ⟨['$', '\x7b'], rfl⟩
              rw [ih r (by simp at hl ⊢; omega)
                (fun tok hm hi => hcl tok hm (hi.trans hsuf.isInfix))]
          by_cases hstart : isIdStart c2 = true
          · rw [safeSub.eq_def]
            simp only [hc2, hb, hstart]
            cases hlook : lookupStr (String.mk (c2 :: r.takeWhile isIdChar))
                (templateMapping ns sn sv inn) with
            | some v =>
              have hkeys := lookupStr_templateMapping_keys _ ns sn sv inn v hlook
              have hmem := templateTokens_plain _ hkeys
              have hdata : (String.mk (c2 :: r.takeWhile isIdChar)).data =
                  c2 :: r.takeWhile isIdChar := rfl
              rw [hdata] at hmem
              refine absurd (show ('$' :: c2 :: r.takeWhile isIdChar) <:+:
                '$' :: c2 :: r from ⟨[], r.dropWhile isIdChar, ?_⟩) (hcl _ hmem)
              simp [List.takeWhile_append_dropWhile]
            | none =>
              have hsuf : r.dropWhile isIdChar <:+ '$' :: c2 :: r :=
                ((List.dropWhile_suffix isIdChar).trans ⟨[c2], rfl⟩).trans ⟨['$'], rfl⟩
              have h3 := ih (r.dropWhile isIdChar) (by
                  have := (List.dropWhile_sublist (l := r) isIdChar).length_le
                  simp at hl ⊢
                  omega)
                (fun tok hm hi => hcl tok hm (hi.trans hsuf.isInfix))
              rw [h3]
              simp [List.takeWhile_append_dropWhile]
          · rw [safeSub.eq_def]
            simp only [hc2, hb, hstart]
            have hsuf : r <:+ '$' :: c2 :: r := ⟨['$', c2], rfl⟩
            rw [ih r (by simp at hl ⊢; omega)
              (fun tok hm hi => hcl tok hm (hi.trans hsuf.isInfix))]
            try simp [hc2, hb, hstart]
      · rw [safeSub.eq_def]
        simp only [hc]
        have hsuf : rest <:+ c :: rest := ⟨[c], rfl⟩
        rw [ih rest (by simp at hl ⊢; omega)
          (fun tok hm hi => hcl tok hm (hi.trans hsuf.isInfix))]
        try simp [hc]

theorem safeSub_id (ns sn sv inn : Option String) (t : List Char)
    (h : noTemplateTokens t = true) :
    safeSub (templateMapping ns sn sv inn) t = t := by
  refine safeSub_id_bounded ns sn sv inn t.length t le_rfl ?_
  intro tok hm hinf
  have h2 := List.all_eq_true.mp h tok hm
  simp only [Bool.not_eq_true', decide_eq_false_iff_not] at h2
  exact h2 hinf

theorem escChar_tame (c : Char) (h : tameChar c = true) : escChar c = [c] := by
  simp only [tameChar, Bool.and_eq_true, Bool.not_eq_true',
    decide_eq_false_iff_not, decide_eq_true_eq] at h
  obtain ⟨⟨⟨h1, h2⟩, h3⟩, h4⟩ := h
  have h5 : c ≠ '\n' := by rintro rfl; simp at h4
  have h6 : c ≠ '\t' := by rintro rfl; simp at h4
  have h7 : c ≠ '\r' := by rintro rfl; simp at h4
  have h8 : c ≠ '\x08' := by rintro rfl; simp at h4
  have h9 : c ≠ '\x0c' := by rintro rfl; simp at h4
  simp [escChar, h1, h2, h5, h6, h7, h8, h9]

theorem escString_tame (cs : List Char) (h : ∀ c ∈ cs, tameChar c = true) :
    escString cs = cs := by
  induction cs with
  | nil => simp [escString]
  | cons c t ih =>
    have hc := escChar_tame c (h c (by simp))
    have ht := ih fun d hd => h d (by simp [hd])
    simp only [escString, List.flatMap_cons] at *
    rw [hc, ht]
    simp

/-- C7 counterexample: the configuration `"$$"` (a JSON string value)
contains none of the four tokens `$namespace`, `$system_name`,
`$system_version`, `$instance_name` in its serialized text, yet the
substitution step rewrites it: `string.Template` collapses the `$$`
escape to `$`, so the deserialized result is `"$"`, not the original. -/
theorem claim7_counterexample :
    (∀ tok ∈ ["$namespace".data, "$system_name".data, "$system_version".data,
        "$instance_name".data], ¬ (tok <:+: dumps (JVal.str "$$"))) ∧
    templatedConfig (JVal.str "$$") none none none none = some (JVal.str "$") ∧
    JVal.str "$" ≠ JVal.str "$$" := by
  have hd : dumps (JVal.str "$$") = ['"', '$', '$', '"'] := by
    simp [dumps, escString, escChar]
  refine ⟨?_, ?_, ?_⟩
  · intro tok hm
    rw [hd]
    simp only [List.mem_cons, List.not_mem_nil, or_false] at hm
    rcases hm with rfl | rfl | rfl | rfl <;> decide
  · have hsub : safeSub (templateMapping none none none none)
        ['"', '$', '$', '"'] = ['"', '$', '"'] := by
      simp [safeSub]
    unfold templatedConfig
    rw [hd, hsub]
    rfl
  · intro hcontra
    injection hcontra with hs
    exact absurd hs (by decide)

/-- C7 amended: template substitution leaves a configuration unchanged
when its serialized text contains no occurrence the `string.Template`
scanner rewrites: none of the four tokens `$namespace`, `$system_name`,
`$system_version`, `$instance_name`, none of their braced
`$\x7b...\x7d` forms, and no `$$` escape. Under that hypothesis the
deserialized result of the substitution step equals the original
configuration. -/
theorem claim7_substitution_identity (cfg : JVal) (ns sn sv inn : Option String)
    (hwf : wfJ cfg = true) (htok : noTemplateTokens (dumps cfg) = true) :
    templatedConfig cfg ns sn sv inn = some cfg := by
  unfold templatedConfig
  rw [safeSub_id ns sn sv inn (dumps cfg) htok]
  exact jsonLoads_dumps cfg

/-- Witness for the amended C7 at a concrete token-free configuration. -/
theorem claim7_substitution_identity_witness :
    wfJ (JVal.obj [("version", JVal.num 1)]) = true ∧
    noTemplateTokens (dumps (JVal.obj [("version", JVal.num 1)])) = true ∧
    templatedConfig (JVal.obj [("version", JVal.num 1)]) none (some "sysX")
      none none = some (JVal.obj [("version", JVal.num 1)]) := by
  have hd : dumps (JVal.obj [("version", JVal.num 1)]) =
      "\x7b\"version\": 1\x7d".data := by
    simp [dumps, dumpsMembers, dumpsMembersTail, escString, escChar, natChars,
      natDigitsRev, digitChar]
  have hwf : wfJ (JVal.obj [("version", JVal.num 1)]) = true := by
    simp [wfJ, keysNodup, wfObj]
  have htok : noTemplateTokens (dumps (JVal.obj [("version", JVal.num 1)])) = true := by
    rw [hd]
    decide
  exact ⟨hwf, htok,
    claim7_substitution_identity (JVal.obj [("version", JVal.num 1)])
      none (some "sysX") none none hwf htok⟩

/-- C1 counterexample: with all arguments left at their `None` defaults,
the token `$namespace` is not left unreplaced — `safe_substitute` is
called with all four keys present (log.py lines 130-135), so it replaces
the token with `str(None)`, the literal string `"None"`. -/
theorem claim1_counterexample :
    templatedConfig (JVal.str "$namespace") none none none none =
      some (JVal.str "None") ∧
    JVal.str "None" ≠ JVal.str "$namespace" := by
  constructor
  · have hd : dumps (JVal.str "$namespace") =
        '"' :: ("$namespace".data ++ ['"']) := by
      simp [dumps, escString, escChar]
    have hsub : safeSub (templateMapping none none none none)
        ('"' :: ("$namespace".data ++ ['"'])) = '"' :: ("None".data ++ ['"']) := by
      simp [safeSub, isIdStart, isIdChar, lookupStr, templateMapping, pyStr]
    unfold templatedConfig
    rw [hd, hsub]
    rfl
  · intro hcontra
    injection hcontra with hs
    exact absurd hs (by decide)

/-- C1 amended: placeholder tokens whose name is not among
`namespace`/`system_name`/`system_version`/`instance_name` are left
unreplaced in the resulting configuration rather than causing a failure;
the four recognized tokens, however, are always substituted — an
argument left at its `None` default is substituted as the string
`"None"` and an empty-string argument as the empty string — rather than
being left unreplaced. -/
theorem claim1_safe_substitution (ns sn sv inn : Option String) :
    templatedConfig
        (JVal.obj [("root", JVal.obj [("level", JVal.str "$unknown_token")])])
        ns sn sv inn =
      some (JVal.obj [("root", JVal.obj [("level", JVal.str "$unknown_token")])]) ∧
    templatedConfig (JVal.str "$namespace") none none none none =
      some (JVal.str "None") ∧
    templatedConfig (JVal.str "$namespace") (some "") none none none =
      some (JVal.str "") := by
  refine ⟨?_, ?_, ?_⟩
  · have hd : dumps (JVal.obj [("root", JVal.obj [("level", JVal.str "$unknown_token")])]) =
        "\x7b\"root\": \x7b\"level\": \"$unknown_token\"\x7d\x7d".data := by
      simp [dumps, dumpsMembers, dumpsMembersTail, escString, escChar]
    refine Eq.trans ?_ (jsonLoads_dumps
      (JVal.obj [("root", JVal.obj [("level", JVal.str "$unknown_token")])]))
    unfold templatedConfig
    rw [safeSub_id ns sn sv inn _ (by rw [hd]; decide)]
  · have hd : dumps (JVal.str "$namespace") =
        '"' :: ("$namespace".data ++ ['"']) := by
      simp [dumps, escString, escChar]
    have hsub : safeSub (templateMapping none none none none)
        ('"' :: ("$namespace".data ++ ['"'])) = '"' :: ("None".data ++ ['"']) := by
      simp [safeSub, isIdStart, isIdChar, lookupStr, templateMapping, pyStr]
    unfold templatedConfig
    rw [hd, hsub]
    rfl
  · have hd : dumps (JVal.str "$namespace") =
        '"' :: ("$namespace".data ++ ['"']) := by
      simp [dumps, escString, escChar]
    have hsub : safeSub (templateMapping (some "") none none none)
        ('"' :: ("$namespace".data ++ ['"'])) = ['"', '"'] := by
      simp [safeSub, isIdStart, isIdChar, lookupStr, templateMapping, pyStr]
    unfold templatedConfig
    rw [hd, hsub]
    rfl

/-- C10: substitution operates on the whole serialized text, so a
recognized token inside a mapping key — here a handler name
`handler_$system_name` — is replaced by the argument's string value,
for every value made of tame characters (no quote, backslash, control
character or `$`). -/
theorem claim10_key_substitution (s : String) (hs : tameStr s = true) :
    templatedConfig
        (JVal.obj [("handlers",
          JVal.obj [("handler_$system_name",
            JVal.obj [("level", JVal.str "INFO")])])])
        none (some s) none none =
      some (JVal.obj [("handlers",
        JVal.obj [(String.mk ("handler_".data ++ s.data),
          JVal.obj [("level", JVal.str "INFO")])])]) := by
  have hesc : escString s.data = s.data :=
    escString_tame s.data fun c hc => List.all_eq_true.mp hs c hc
  have hd1 : dumps (JVal.obj [("handlers",
      JVal.obj [("handler_$system_name", JVal.obj [("level", JVal.str "INFO")])])]) =
      "\x7b\"handlers\": \x7b\"handler_$system_name\": \x7b\"level\": \"INFO\"\x7d\x7d\x7d".data := by
    simp [dumps, dumpsMembers, dumpsMembersTail, escString, escChar]
  have hd2 : dumps (JVal.obj [("handlers",
      JVal.obj [(String.mk ("handler_".data ++ s.data),
        JVal.obj [("level", JVal.str "INFO")])])]) =
      "\x7b\"handlers\": \x7b\"handler_".data ++
        (s.data ++ "\": \x7b\"level\": \"INFO\"\x7d\x7d\x7d".data) := by
    simp [dumps, dumpsMembers, dumpsMembersTail, escString, escChar]
    simp only [escString] at hesc
    simp [hesc]
  have hsub : safeSub (templateMapping none (some s) none none)
      ("\x7b\"handlers\": \x7b\"handler_$system_name\": \x7b\"level\": \"INFO\"\x7d\x7d\x7d".data) =
      "\x7b\"handlers\": \x7b\"handler_".data ++
        (s.data ++ "\": \x7b\"level\": \"INFO\"\x7d\x7d\x7d".data) := by
    simp [safeSub, isIdStart, isIdChar, lookupStr, templateMapping, pyStr]
  unfold templatedConfig
  rw [hd1, hsub, ← hd2]
  exact jsonLoads_dumps _

/-- Witness for C10 at the value `"foo"`. -/
theorem claim10_key_substitution_witness :
    tameStr "foo" = true ∧
    templatedConfig
        (JVal.obj [("handlers",
          JVal.obj [("handler_$system_name",
            JVal.obj [("level", JVal.str "INFO")])])])
        none (some "foo") none none =
      some (JVal.obj [("handlers",
        JVal.obj [(String.mk ("handler_".data ++ "foo".data),
          JVal.obj [("level", JVal.str "INFO")])])]) :=
  ⟨by decide, claim10_key_substitution "foo" (by decide)⟩

/-- C9: when the substituted text deserializes to a mapping with no
top-level `"handlers"` key, `configure_logging` raises a lookup error
(`KeyError` from `logging_config["handlers"]`, line 139) and returns
with the state untouched: no directory is created and the active
logging configuration is unchanged. -/
theorem claim9_missing_handlers_key (dirAbs : String → String) (raw : JVal)
    (ns sn sv inn : Option String) (st : LogState)
    (kvs : List (String × JVal))
    (hparse : templatedConfig raw ns sn sv inn = some (.obj kvs))
    (hmiss : lookupAssoc "handlers" kvs = none) :
    configure_logging dirAbs raw ns sn sv inn st = (st, some .keyError) := by
  simp [configure_logging, hparse, hmiss]

/-- Witness for C9 at a configuration lacking `"handlers"`. -/
theorem claim9_missing_handlers_key_witness :
    templatedConfig (JVal.obj [("version", JVal.num 1)]) none none none none =
      some (.obj [("version", JVal.num 1)]) ∧
    lookupAssoc "handlers" [("version", JVal.num 1)] = none ∧
    configure_logging (fun f => f) (JVal.obj [("version", JVal.num 1)])
      none none none none (LogState.mk [] none) =
      (LogState.mk [] none, some .keyError) := by
  have hd : dumps (JVal.obj [("version", JVal.num 1)]) =
      "\x7b\"version\": 1\x7d".data := by
    simp [dumps, dumpsMembers, dumpsMembersTail, escString, escChar, natChars,
      natDigitsRev, digitChar]
  have hparse : templatedConfig (JVal.obj [("version", JVal.num 1)])
      none none none none = some (.obj [("version", JVal.num 1)]) := by
    have hsub : safeSub (templateMapping none none none none)
        ("\x7b\"version\": 1\x7d".data) = "\x7b\"version\": 1\x7d".data := by
      simp [safeSub]
    unfold templatedConfig
    rw [hd, hsub]
    rfl
  exact ⟨hparse, rfl,
    claim9_missing_handlers_key (fun f => f) (JVal.obj [("version", JVal.num 1)])
      none none none none (LogState.mk [] none) [("version", JVal.num 1)]
      hparse rfl⟩

theorem ensureDir_mono (dirAbs : String → String) (h : JVal)
    (dirs : List String) : ∀ x ∈ dirs, x ∈ (ensureDir dirAbs h dirs).1 := by
  intro x hx
  cases h with
  | null => simpa [ensureDir] using hx
  | bool b => simpa [ensureDir] using hx
  | num n => simpa [ensureDir] using hx
  | str s =>
    simp only [ensureDir]
    split
    · exact hx
    · exact hx
  | arr xs =>
    simp only [ensureDir]
    split
    · exact hx
    · exact hx
  | obj fields =>
    simp only [ensureDir]
    cases hlf : lookupAssoc "filename" fields with
    | none => exact hx
    | some fv =>
      cases fv with
      | null => exact hx
      | bool b => exact hx
      | num n => exact hx
      | arr ys => exact hx
      | obj kvs => exact hx
      | str f =>
        show x ∈ (if dirAbs f ∈ dirs then (dirs, (none : Option PyErr))
          else (makedirs (dirAbs f) dirs, none)).1
        split
        · exact hx
        · simp [makedirs, hx]

theorem ensureDirs_mono (dirAbs : String → String) (hs : List JVal) :
    ∀ (dirs : List String), ∀ x ∈ dirs, x ∈ (ensureDirs dirAbs hs dirs).1 := by
  induction hs with
  | nil => intro dirs x hx; simpa [ensureDirs] using hx
  | cons h0 t ih =>
    intro dirs x hx
    have h1 := ensureDir_mono dirAbs h0 dirs x hx
    unfold ensureDirs
    rcases hD : ensureDir dirAbs h0 dirs with ⟨d2, e⟩
    rw [hD] at h1
    cases e with
    | none => exact ih d2 x h1
    | some e0 => exact h1

theorem ensureDirs_filename_mem (dirAbs : String → String) (hs : List JVal) :
    ∀ (dirs dirs' : List String), ensureDirs dirAbs hs dirs = (dirs', none) →
      ∀ h ∈ hs, ∀ (flds : List (String × JVal)) (f : String), h = .obj flds →
        lookupAssoc "filename" flds = some (.str f) → dirAbs f ∈ dirs' := by
  induction hs with
  | nil =>
    intro dirs dirs' hE h hm
    simp at hm
  | cons h0 t ih =>
    intro dirs dirs' hE h hm flds f hobj hfile
    unfold ensureDirs at hE
    rcases hD : ensureDir dirAbs h0 dirs with ⟨d2, e⟩
    rw [hD] at hE
    cases e with
    | some e0 =>
      have hE2 : ((d2, some e0) : List String × Option PyErr) = (dirs', none) := hE
      simp at hE2
    | none =>
      have hE2 : ensureDirs dirAbs t d2 = (dirs', none) := hE
      rcases List.mem_cons.mp hm with rfl | hm2
      · subst hobj
        have hd2 : dirAbs f ∈ d2 := by
          simp only [ensureDir] at hD
          rw [hfile] at hD
          have hD2 : (if dirAbs f ∈ dirs then (dirs, (none : Option PyErr))
              else (makedirs (dirAbs f) dirs, none)) = (d2, none) := hD
          by_cases hin : dirAbs f ∈ dirs
          · rw [if_pos hin] at hD2
            simp only [Prod.mk.injEq] at hD2
            rw [← hD2.1]
            exact hin
          · rw [if_neg hin] at hD2
            simp only [Prod.mk.injEq] at hD2
            rw [← hD2.1]
            simp [makedirs]
        have := ensureDirs_mono dirAbs t d2 (dirAbs f) hd2
        rw [hE2] at this
        exact this
      · exact ih d2 dirs' hE2 h hm2 flds f hobj hfile

/-- C8: when `configure_logging` completes without error, every handler
of the substituted configuration that has a `filename` field has the
parent directory of that filename's resolved absolute path (the
environment-dependent `os.path.dirname(os.path.abspath(...))`, modelled
by `dirAbs`) present in the filesystem state after the call. -/
theorem claim8_handler_directories_exist (dirAbs : String → String) (raw : JVal)
    (ns sn sv inn : Option String) (st st' : LogState)
    (cfgkvs hkvs flds : List (String × JVal)) (k : String) (h : JVal) (f : String)
    (hok : configure_logging dirAbs raw ns sn sv inn st = (st', none))
    (hparse : templatedConfig raw ns sn sv inn = some (.obj cfgkvs))
    (hh : lookupAssoc "handlers" cfgkvs = some (.obj hkvs))
    (hmem : (k, h) ∈ hkvs) (hobj : h = .obj flds)
    (hfile : lookupAssoc "filename" flds = some (.str f)) :
    dirAbs f ∈ st'.dirs := by
  unfold configure_logging at hok
  rw [hparse] at hok
  have hok2 : (match lookupAssoc "handlers" cfgkvs with
      | none => (st, some PyErr.keyError)
      | some (JVal.obj hkvs2) =>
        (match ensureDirs dirAbs (hkvs2.map Prod.snd) st.dirs with
          | (dirs2, none) =>
            (dictConfig (JVal.obj cfgkvs) { st with dirs := dirs2 }, none)
          | (dirs2, some e) => ({ st with dirs := dirs2 }, some e))
      | some _ => (st, some PyErr.attributeError)) = (st', none) := hok
  rw [hh] at hok2
  have hok3 : (match ensureDirs dirAbs (hkvs.map Prod.snd) st.dirs with
      | (dirs2, none) =>
        (dictConfig (JVal.obj cfgkvs) { st with dirs := dirs2 }, none)
      | (dirs2, some e) => ({ st with dirs := dirs2 }, some e)) = (st', none) := hok2
  rcases hED : ensureDirs dirAbs (hkvs.map Prod.snd) st.dirs with ⟨dirs2, e⟩
  rw [hED] at hok3
  cases e with
  | some e0 =>
    have hok4 : (({ st with dirs := dirs2 } : LogState), some e0) = (st', none) := hok3
    simp at hok4
  | none =>
    have hok4 : ((dictConfig (JVal.obj cfgkvs) { st with dirs := dirs2 }), none) =
        ((st', none) : LogState × Option PyErr) := hok3
    have hmem2 : dirAbs f ∈ dirs2 :=
      ensureDirs_filename_mem dirAbs (hkvs.map Prod.snd) st.dirs dirs2 hED h
        (List.mem_map_of_mem Prod.snd hmem) flds f hobj hfile
    have hst : st' = dictConfig (JVal.obj cfgkvs) { st with dirs := dirs2 } :=
      (congrArg Prod.fst hok4).symm
    rw [hst]
    exact hmem2

set_option maxRecDepth 8192 in
/-- Witness for C8 at a one-file-handler configuration: the resolved
parent directory is recorded as existing after the successful call. -/
theorem claim8_handler_directories_exist_witness :
    configure_logging (fun _ => "/abs/logs")
        (JVal.obj [("handlers",
          JVal.obj [("file", JVal.obj [("filename", JVal.str "logs/app.log")])])])
        none none none none (LogState.mk [] none) =
      (LogState.mk ["/abs/logs", "/abs"]
        (some (JVal.obj [("handlers",
          JVal.obj [("file", JVal.obj [("filename", JVal.str "logs/app.log")])])])),
        none) ∧
    (fun (_ : String) => "/abs/logs") "logs/app.log" ∈
      (LogState.mk ["/abs/logs", "/abs"]
        (some (JVal.obj [("handlers",
          JVal.obj [("file", JVal.obj [("filename", JVal.str "logs/app.log")])])]))).dirs := by
  have hd : dumps (JVal.obj [("handlers",
      JVal.obj [("file", JVal.obj [("filename", JVal.str "logs/app.log")])])]) =
      "\x7b\"handlers\": \x7b\"file\": \x7b\"filename\": \"logs/app.log\"\x7d\x7d\x7d".data := by
    simp [dumps, dumpsMembers, dumpsMembersTail, escString, escChar]
  have hparse : templatedConfig (JVal.obj [("handlers",
      JVal.obj [("file", JVal.obj [("filename", JVal.str "logs/app.log")])])])
      none none none none =
      some (JVal.obj [("handlers",
        JVal.obj [("file", JVal.obj [("filename", JVal.str "logs/app.log")])])]) := by
    unfold templatedConfig
    rw [safeSub_id none none none none _ (by rw [hd]; decide)]
    exact jsonLoads_dumps _
  have hok : configure_logging (fun _ => "/abs/logs")
      (JVal.obj [("handlers",
        JVal.obj [("file", JVal.obj [("filename", JVal.str "logs/app.log")])])])
      none none none none (LogState.mk [] none) =
      (LogState.mk ["/abs/logs", "/abs"]
        (some (JVal.obj [("handlers",
          JVal.obj [("file", JVal.obj [("filename", JVal.str "logs/app.log")])])])),
        none) := by
    unfold configure_logging
    rw [hparse]
    rfl
  refine ⟨hok, ?_⟩
  exact claim8_handler_directories_exist (fun _ => "/abs/logs")
    (JVal.obj [("handlers",
      JVal.obj [("file", JVal.obj [("filename", JVal.str "logs/app.log")])])])
    none none none none (LogState.mk [] none)
    (LogState.mk ["/abs/logs", "/abs"]
      (some (JVal.obj [("handlers",
        JVal.obj [("file", JVal.obj [("filename", JVal.str "logs/app.log")])])])))
    [("handlers", JVal.obj [("file", JVal.obj [("filename", JVal.str "logs/app.log")])])]
    [("file", JVal.obj [("filename", JVal.str "logs/app.log")])]
    [("filename", JVal.str "logs/app.log")]
    "file" (JVal.obj [("filename", JVal.str "logs/app.log")]) "logs/app.log"
    hok hparse rfl (by simp) rfl rfl
